/-
Verification of the imgwork batch image-processing CLI.

The development shallowly embeds the repository's path-handling,
discovery, batch-orchestration and per-command validation logic:

* `src/unnamed/part_000` (the file utilities module): `IMAGE_EXTENSIONS`,
  `isImageFile`, `findImagesInDirectory`, `findImages`;
* `src/src/utils/output.js`: `resolveOutputPath`, `getOutputFilePath`;
* `src/src/processor.js`: `processImages`;
* `src/src/commands/optimize.js`: `optimizeImage` (validation and plan);
* `src/src/commands/crop.js`: both `cropImage` variants,
  `parseDimension`, `calculateCropCoordinates`;
* `src/index.js`: the per-command actions (validation, discovery,
  exit-code computation).

Node `path` functions are modelled over normalized absolute paths
represented as their component lists (`Path := List String`); `render`
recovers the string form ("/" ++ components joined by "/"), which is
what the source's raw string operations (`String.prototype.startsWith`,
string concatenation of the `-imgwork` suffix) act on.  JavaScript
string primitives are modelled by executable character-list functions
(`strStartsWith`, `splitOnChar`, `strToLower`, ...) so every concrete
instance evaluates inside the kernel.
-/
import Mathlib

set_option autoImplicit false

namespace Imgwork

/-- Decidable equality for `Except`, so concrete runs of the fallible
operations can be settled by `decide`. -/
instance {ε α : Type} [DecidableEq ε] [DecidableEq α] : DecidableEq (Except ε α) := fun x y =>
  match x, y with
  | Except.ok a, Except.ok b =>
    match decEq a b with
    | isTrue h => isTrue (h ▸ rfl)
    | isFalse h => isFalse fun he => h (Except.ok.inj he)
  | Except.error a, Except.error b =>
    match decEq a b with
    | isTrue h => isTrue (h ▸ rfl)
    | isFalse h => isFalse fun he => h (Except.error.inj he)
  | Except.ok _, Except.error _ => isFalse fun he => Except.noConfusion he
  | Except.error _, Except.ok _ => isFalse fun he => Except.noConfusion he

/-! ### JavaScript string primitives, modelled over character lists -/

/-- JS `s.startsWith(pre)`: raw string-prefix test. -/
def strStartsWith (s pre : String) : Bool := pre.data.isPrefixOf s.data

/-- JS `s.endsWith(suf)`. -/
def strEndsWith (s suf : String) : Bool := suf.data.isSuffixOf s.data

/-- Split a character list at every occurrence of `c` (JS
`s.split(c)` / the single-separator uses of Node's path parsing). -/
def splitOnCharAux (c : Char) : List Char → List Char → List (List Char)
  | [], acc => [acc.reverse]
  | x :: xs, acc =>
    if x = c then acc.reverse :: splitOnCharAux c xs []
    else splitOnCharAux c xs (x :: acc)

/-- Split a string at every occurrence of the character `c`. -/
def splitOnChar (c : Char) (s : String) : List String :=
  (splitOnCharAux c s.data []).map String.mk

/-- ASCII lower-casing of one character (JS `toLowerCase` on the ASCII
option and extension strings this tool handles). -/
def charToLower (c : Char) : Char :=
  if 'A' ≤ c && c ≤ 'Z' then Char.ofNat (c.toNat + 32) else c

/-- JS `s.toLowerCase()` (ASCII). -/
def strToLower (s : String) : String := String.mk (s.data.map charToLower)

/-- Drop the last `n` characters of a string. -/
def strDropRight (s : String) (n : Nat) : String :=
  String.mk (s.data.take (s.data.length - n))

/-! ### Path model (Node `path` on normalized absolute paths) -/

/-- A normalized absolute path, as its list of components; `[]` is the
filesystem root `/`. -/
abbrev Path := List String

/-- The string form of an absolute path, as Node's `path.resolve`
produces it: "/" followed by the components joined with "/". -/
def render (p : Path) : String :=
  "/" ++ String.intercalate "/" p

/-- Normalization step shared by `path.resolve` and `path.join`:
apply raw segments to an absolute base, resolving `.`, `..` and empty
segments (at the root, `..` stays at the root, as in Node). -/
def normalize (base : Path) : List String → Path
  | [] => base
  | "" :: segs => normalize base segs
  | "." :: segs => normalize base segs
  | ".." :: segs => normalize base.dropLast segs
  | seg :: segs => normalize (base ++ [seg]) segs

/-- Node `path.resolve(cwd, s)`: absolute strings restart from the
root, relative strings apply to `cwd`. -/
def resolve (cwd : Path) (s : String) : Path :=
  if strStartsWith s "/" then normalize [] (splitOnChar '/' s)
  else normalize cwd (splitOnChar '/' s)

/-- Node `path.dirname` on an absolute path (the root is its own
parent). -/
def dirname (p : Path) : Path := p.dropLast

/-- Last component of an absolute path ("" for the root). -/
def lastName (p : Path) : String := p.getLastD ""

/-- Appending a suffix to the rendered string of a normalized absolute
path (the source's `inputPath + '-imgwork'`) appends it to the last
component; on the root it creates the component (`"/" + s = "/s"`). -/
def appendToLast (p : Path) (suffix : String) : Path :=
  match p with
  | [] => [suffix]
  | _ => p.dropLast ++ [p.getLastD "" ++ suffix]

/-- Node `path.extname` of a single path component: the substring from
the last dot, except that a lone leading dot marks a hidden file and is
not an extension. -/
def extname (name : String) : String :=
  match splitOnChar '.' name with
  | [] => ""
  | [_] => ""
  | "" :: rest => if rest.length == 1 then "" else "." ++ rest.getLastD ""
  | parts => "." ++ parts.getLastD ""

/-- Node `path.basename(name, ext)` on a single component: strip `ext`
when it is a proper suffix of `name`. -/
def stripExt (name ext : String) : String :=
  if ext ≠ "" && strEndsWith name ext && name != ext then
    strDropRight name ext.length
  else name

/-- Length of the longest common component prefix of two paths. -/
def commonPrefixLen : Path → Path → Nat
  | a :: as, b :: bs => if a = b then commonPrefixLen as bs + 1 else 0
  | _, _ => 0

/-- Node `path.relative(fromP, toP)` on absolute paths, as the segment
list of the relative path: one `..` per uncommon component of `fromP`,
then the uncommon components of `toP`. -/
def relative (fromP toP : Path) : List String :=
  let k := commonPrefixLen fromP toP
  List.replicate (fromP.length - k) ".." ++ toP.drop k

/-- Component-wise ancestry: `a` is an ancestor of (or equal to) `b`
exactly when `a`'s components lead from the root to `b`. This is the
path-containment notion the raw string-prefix test of
`getOutputFilePath` is contrasted with. -/
def isPathAncestor (a b : Path) : Bool := a.isPrefixOf b

/-! ### File-system model

The discovery module (`findImages` / `findImagesInDirectory` in the
file utilities module) walks a real directory tree through
`fs.readdirSync` / `fs.statSync`.  We model the file system as a rooted
tree with named, ordered entries. -/

/-- A file-system node: a plain file, or a directory with its entries
listed in the order `fs.readdirSync` yields them. -/
inductive FSTree where
  | file : FSTree
  | dir : List (String × FSTree) → FSTree
deriving Repr

mutual

/-- Look a normalized absolute path up in a file-system tree
(`fs.existsSync` + `fs.statSync`). -/
def FSTree.lookup : FSTree → Path → Option FSTree
  | t, [] => some t
  | FSTree.file, _ :: _ => none
  | FSTree.dir es, c :: cs => lookupEntries es c cs

/-- Find the entry named `c` among a directory's entries and continue
the lookup below it. -/
def lookupEntries : List (String × FSTree) → String → List String → Option FSTree
  | [], _, _ => none
  | (n, t) :: rest, c, cs =>
    if n = c then FSTree.lookup t cs else lookupEntries rest c cs

end

/-! ### File discovery (the file utilities module) -/

/-- `IMAGE_EXTENSIONS` from the file utilities module. -/
def IMAGE_EXTENSIONS : List String :=
  [".jpg", ".jpeg", ".png", ".webp", ".gif", ".tiff", ".tif"]

/-- `isImageFile(filePath)`: the lower-cased extension is in the
recognized set.  Node's `path.extname` only inspects the portion after
the last `/`, so we state it on the file's base name. -/
def isImageFile (name : String) : Bool :=
  IMAGE_EXTENSIONS.contains (strToLower (extname name))

mutual

/-- One loop iteration of `findImagesInDirectory`: a subdirectory is
recursed into, a file is kept when its extension is recognized. -/
def findImagesInEntry (base : Path) (name : String) : FSTree → List Path
  | FSTree.file => if isImageFile name then [base ++ [name]] else []
  | FSTree.dir es => findImagesInDirectory (base ++ [name]) es

/-- `findImagesInDirectory(dirPath)`: depth-first traversal in entry
order, collecting the absolute path of every file whose extension is
recognized.  `base` is the absolute path of the directory owning the
entries. -/
def findImagesInDirectory (base : Path) : List (String × FSTree) → List Path
  | [] => []
  | (n, t) :: rest => findImagesInEntry base n t ++ findImagesInDirectory base rest

end

mutual

/-- Every file under one entry, recognized or not. -/
def allFilesInEntry (base : Path) (name : String) : FSTree → List Path
  | FSTree.file => [base ++ [name]]
  | FSTree.dir es => allFilesUnder (base ++ [name]) es

/-- Every file under the given entries, recognized or not, in the same
traversal order as `findImagesInDirectory`. -/
def allFilesUnder (base : Path) : List (String × FSTree) → List Path
  | [] => []
  | (n, t) :: rest => allFilesInEntry base n t ++ allFilesUnder base rest

end

/-- `findImages(paths)`: resolve each input, warn and skip missing
paths, recurse into directories, keep image files, warn on non-image
files.  Returns the discovered image paths and the warning lines, both
in emission order. -/
def findImages (cwd : Path) (root : FSTree) : List String → List Path × List String
  | [] => ([], [])
  | p :: rest =>
    let absolutePath := resolve cwd p
    let (imgs, warns) := findImages cwd root rest
    match root.lookup absolutePath with
    | none => (imgs, (s!"Error: Path does not exist: {p}") :: warns)
    | some (FSTree.dir es) => (findImagesInDirectory absolutePath es ++ imgs, warns)
    | some FSTree.file =>
      if isImageFile (lastName absolutePath) then (absolutePath :: imgs, warns)
      else (imgs, (s!"Skipping non-image file: {p}") :: warns)

/-! ### Output path resolution (`src/src/utils/output.js`) -/

/-- What `fs.existsSync` + `fs.statSync(..).isDirectory()` report for a
path (the only file-system facts `output.js` consults). -/
inductive FSKind where
  | dir : FSKind
  | file : FSKind
  | missing : FSKind
deriving Repr, DecidableEq

/-- The record returned by `resolveOutputPath`:
`{ outputBase, isDirectory, isSingleFile }`. -/
structure OutputInfo where
  outputBase : Path
  isDirectory : Bool
  isSingleFile : Bool
deriving Repr, DecidableEq

/-- `resolveOutputPath(inputs, outOption)`.  `stat` abstracts the file
system; `cwd` is the process working directory (`process.cwd()`).
`outOption = none` models an absent (or empty, hence falsy) `--out`.
The source resolves a `./`- or `../`-prefixed `--out` against
`path.dirname` of the resolved first input in both the directory and
the file branch of its inner `if`, so the branches are collapsed here.
`commander` guarantees at least one input; `inputs.headD ""` renders
the never-exercised empty case harmless. -/
def resolveOutputPath (cwd : Path) (stat : Path → FSKind)
    (inputs : List String) (outOption : Option String) : OutputInfo :=
  match outOption with
  | some out =>
    let outputPath :=
      if strStartsWith out "./" || strStartsWith out "../" then
        let firstInputAbsolute := resolve cwd (inputs.headD "")
        resolve (dirname firstInputAbsolute) out
      else
        resolve cwd out
    ⟨outputPath, true, false⟩
  | none =>
    if inputs.length == 1 then
      let inputPath := resolve cwd (inputs.headD "")
      if stat inputPath = FSKind.dir then
        ⟨appendToLast inputPath "-imgwork", true, false⟩
      else
        let dir := dirname inputPath
        let ext := extname (lastName inputPath)
        let basename := stripExt (lastName inputPath) ext
        ⟨dir ++ [basename ++ "-imgwork" ++ ext], false, true⟩
    else
      ⟨normalize cwd ["imgwork-output"], true, false⟩

/-- The owner-scan loop of `getOutputFilePath`: the first input whose
resolved absolute path is a raw string prefix of the file's path
(`inputFile.startsWith(inputAbsolute)`) supplies the base directory —
itself if it is a directory, its parent otherwise; with no owner the
file's own directory is the fallback. -/
def findOwnerBase (cwd : Path) (stat : Path → FSKind)
    (allInputs : List String) (inputFile : Path) : Path :=
  match allInputs.find? (fun input =>
      strStartsWith (render inputFile) (render (resolve cwd input))) with
  | some input =>
    let inputAbsolute := resolve cwd input
    if stat inputAbsolute = FSKind.dir then inputAbsolute
    else dirname inputAbsolute
  | none => dirname inputFile

/-- `getOutputFilePath(inputFile, allInputs, outputInfo, newExtension)`.
In the single-file branch the source replaces the trailing extension of
`outputBase` via a regex anchored at the end of the string; on the
normalized paths in play this is exactly "strip the extension of the
last component, append the new one". -/
def getOutputFilePath (cwd : Path) (stat : Path → FSKind) (inputFile : Path)
    (allInputs : List String) (outputInfo : OutputInfo)
    (newExtension : Option String) : Path :=
  if outputInfo.isSingleFile then
    match newExtension with
    | some newExt =>
      let ext := extname (lastName outputInfo.outputBase)
      dirname outputInfo.outputBase ++
        [stripExt (lastName outputInfo.outputBase) ext ++ newExt]
    | none => outputInfo.outputBase
  else
    let ext := (newExtension).getD (extname (lastName inputFile))
    let basename := stripExt (lastName inputFile) (extname (lastName inputFile))
    let baseDir := findOwnerBase cwd stat allInputs inputFile
    let relativePath := relative baseDir (dirname inputFile)
    let outputDir := normalize outputInfo.outputBase relativePath
    normalize outputDir [basename ++ ext]

/-! ### Batch orchestration (`src/src/processor.js`) -/

/-- The accumulator `results` of `processImages`: total, success and
failure counts plus the ordered `(file name, error message)` pairs. -/
structure BatchResult where
  total : Nat
  successful : Nat
  failed : Nat
  errors : List (String × String)
deriving Repr, DecidableEq

/-- A run of `processImages` together with its observable side
effects: which files processing was attempted for, and which output
directories were passed to `ensureDirectoryExists` (both in order). -/
structure ProcessTrace where
  result : BatchResult
  attempted : List Path
  dirsEnsured : List Path
deriving Repr, DecidableEq

/-- The per-file loop of `processImages`.  For each file the output
path is computed, its directory ensured, and the processing function
run; a thrown error increments `failed` and appends
`(path.basename(file), message)`, and the loop continues.  Returns
`(successful, failed, errors, attempted, dirsEnsured)`. -/
def processLoop (outPathOf : Path → Path) (run : Path → Path → Except String Unit) :
    List Path → Nat × Nat × List (String × String) × List Path × List Path
  | [] => (0, 0, [], [], [])
  | f :: rest =>
    let outputPath := outPathOf f
    let outputDir := dirname outputPath
    let (s, fl, errs, att, dirs) := processLoop outPathOf run rest
    match run f outputPath with
    | Except.ok _ => (s + 1, fl, errs, f :: att, outputDir :: dirs)
    | Except.error e => (s, fl + 1, (lastName f, e) :: errs, f :: att, outputDir :: dirs)

/-- `processImages(files, inputs, outputInfo, processFunc, options)`,
with the output-path computation and the per-file processing function
abstracted (`outPathOf` is `getOutputFilePath` partially applied; `run`
is `processFunc`, which receives the input and output paths). -/
def processImages (files : List Path) (outPathOf : Path → Path)
    (run : Path → Path → Except String Unit) : ProcessTrace :=
  let (s, fl, errs, att, dirs) := processLoop outPathOf run files
  ⟨⟨files.length, s, fl, errs⟩, att, dirs⟩

/-! ### Command actions (`src/index.js`) -/

/-- The observable outcome of one CLI action: the process exit status
and, when the batch ran, its trace.  The source calls `process.exit(1)`
explicitly on validation failure or an empty discovery; a completed
action falls off the end of the handler and the process exits 0 —
`results.failed` is never consulted. -/
structure ActionOutcome where
  exitCode : Nat
  trace : Option ProcessTrace
deriving Repr, DecidableEq

/-- The shared shape of the four command actions after their
command-specific validation: discover, bail out with exit 1 when
nothing was found, resolve the output target, process every file, and
finish with exit 0 regardless of per-file failures. -/
def runBatchAction (cwd : Path) (root : FSTree) (stat : Path → FSKind)
    (files : List String) (outOption : Option String)
    (newExtension : Option String)
    (run : Path → Path → Except String Unit) : ActionOutcome :=
  let images := (findImages cwd root files).1
  if images.length == 0 then ⟨1, none⟩
  else
    let outputInfo := resolveOutputPath cwd stat files outOption
    let outPathOf := fun f => getOutputFilePath cwd stat f files outputInfo newExtension
    ⟨0, some (processImages images outPathOf run)⟩

/-! ### Format conversion (`src/src/commands/convert.js`) -/

/-- `SUPPORTED_FORMATS` from `convert.js`. -/
def SUPPORTED_FORMATS : List String := ["jpeg", "jpg", "png", "webp", "tiff"]

/-- `getExtensionForFormat(format)`. -/
def getExtensionForFormat (format : String) : String :=
  let normalized := strToLower format
  if normalized == "jpeg" || normalized == "jpg" then ".jpg" else "." ++ normalized

/-- The `convert` action of `src/index.js`: no command-global
validation beyond commander's required `--to`; discovery, output
resolution and batch processing as in every action, with the new
extension derived from the target format.  `run` abstracts
`convertImage`'s interaction with the image library. -/
def convertAction (cwd : Path) (root : FSTree) (stat : Path → FSKind)
    (files : List String) (format : String) (outOption : Option String)
    (run : Path → Path → Except String Unit) : ActionOutcome :=
  runBatchAction cwd root stat files outOption
    (some (getExtensionForFormat format)) run

/-! ### Optimization (`src/src/commands/optimize.js`) -/

/-- The output-encoding configuration `optimizeImage` hands to the
image library. -/
inductive SharpOutputConfig where
  | pngLossless : SharpOutputConfig
  | webpLossless : SharpOutputConfig
  | jpegMax : SharpOutputConfig
  | jpegQuality : Nat → SharpOutputConfig
  | webpQuality : Nat → SharpOutputConfig
  | pngCompression : Nat → SharpOutputConfig
  | reencode : Option String → SharpOutputConfig
deriving Repr, DecidableEq

/-- The pipeline `optimizeImage` builds: whether metadata is stripped
down to orientation, and the output-encoding configuration. -/
structure OptimizePlan where
  stripMetadata : Bool
  output : SharpOutputConfig
deriving Repr, DecidableEq

/-- The extension-to-format chain of `optimizeImage`. -/
def formatForExt (ext : String) : Option String :=
  if ext == ".jpg" || ext == ".jpeg" then some "jpeg"
  else if ext == ".png" then some "png"
  else if ext == ".webp" then some "webp"
  else if ext == ".tiff" || ext == ".tif" then some "tiff"
  else if ext == ".gif" then some "gif"
  else none

/-- `optimizeImage(inputPath, outputPath, options)` up to the final
encode: validation, format detection and pipeline construction.
`quality` is the parsed numeric value of the CLI string (`none` =
absent, hence falsy; a non-numeric string only adds one more
per-file error path and is not modelled).  The PNG compression level
`Math.round((100 - q) / 10)` is exact in floating point for every
`q ≤ 100`, so Nat arithmetic reproduces it. -/
def optimizeImage (inputName : String) (quality : Option Nat) (lossless : Bool) :
    Except String OptimizePlan :=
  if quality.isNone && !lossless then
    Except.error "Either --quality <number> or --lossless flag must be specified"
  else if quality.isSome && lossless then
    Except.error "Cannot use both --quality and --lossless. Choose one."
  else match quality with
    | some q =>
      if q < 1 || q > 100 then
        Except.error "Quality must be a number between 1 and 100"
      else
        let format := formatForExt (strToLower (extname inputName))
        let output :=
          if format = some "jpeg" then SharpOutputConfig.jpegQuality q
          else if format = some "webp" then SharpOutputConfig.webpQuality q
          else if format = some "png" then
            SharpOutputConfig.pngCompression (min 9 ((100 - q + 5) / 10))
          else SharpOutputConfig.reencode format
        Except.ok ⟨false, output⟩
    | none =>
      let format := formatForExt (strToLower (extname inputName))
      let output :=
        if format = some "png" then SharpOutputConfig.pngLossless
        else if format = some "webp" then SharpOutputConfig.webpLossless
        else if format = some "jpeg" then SharpOutputConfig.jpegMax
        else SharpOutputConfig.reencode format
      Except.ok ⟨true, output⟩

/-- The `optimize` action of `src/index.js`: its command-global
validation rejects only the case where *neither* `--quality` nor
`--lossless` is given; the both-given case reaches the per-file
`optimizeImage` call. -/
def optimizeAction (cwd : Path) (root : FSTree) (stat : Path → FSKind)
    (files : List String) (quality : Option Nat) (lossless : Bool)
    (outOption : Option String) : ActionOutcome :=
  if quality.isNone && !lossless then ⟨1, none⟩
  else
    runBatchAction cwd root stat files outOption none
      (fun f _ => (optimizeImage (lastName f) quality lossless).map (fun _ => ()))

/-! ### Crop (`src/src/commands/crop.js`, both variants) -/

/-- `POSITION_MAP`: user position names to the library's gravity
names. -/
def POSITION_MAP (pos : String) : Option String :=
  if pos == "center" then some "centre"
  else if pos == "top" then some "north"
  else if pos == "bottom" then some "south"
  else if pos == "left" then some "west"
  else if pos == "right" then some "east"
  else if pos == "top-left" then some "northwest"
  else if pos == "top-right" then some "northeast"
  else if pos == "bottom-left" then some "southwest"
  else if pos == "bottom-right" then some "southeast"
  else none

/-- The keys of `POSITION_MAP`, in declaration order (for the error
message). -/
def POSITION_KEYS : List String :=
  ["center", "top", "bottom", "left", "right",
   "top-left", "top-right", "bottom-left", "bottom-right"]

/-- The invalid-position error text shared by both `cropImage`
variants. -/
def invalidPositionMsg (position : String) : String :=
  let keys := String.intercalate ", " POSITION_KEYS
  s!"Invalid position: {position}. Valid positions: {keys}"

/-- A `--w`/`--h` value as handed to `parseDimension`: absent (JS
falsy), one of the size keywords, a numeric string with its parsed
value, or a non-numeric non-keyword string (`parseInt` yields NaN). -/
inductive Dim where
  | absent : Dim
  | half : Dim
  | quarter : Dim
  | third : Dim
  | num : Int → Dim
  | nan : Dim
deriving Repr, DecidableEq

/-- The raw text of a dimension value, for error messages. -/
def dimStr : Dim → String
  | Dim.absent => ""
  | Dim.half => "half"
  | Dim.quarter => "quarter"
  | Dim.third => "third"
  | Dim.num n => toString n
  | Dim.nan => "?"

/-- `parseDimension(value, originalSize)` (second crop variant and
`resize.js`): `null` for a falsy value, `Math.floor` of the keyword
fraction of the source dimension, the parsed number when positive,
an error otherwise. -/
def parseDimension (value : Dim) (originalSize : Nat) : Except String (Option Nat) :=
  match value with
  | Dim.absent => Except.ok none
  | Dim.half => Except.ok (some (originalSize / 2))
  | Dim.quarter => Except.ok (some (originalSize / 4))
  | Dim.third => Except.ok (some (originalSize / 3))
  | Dim.num n =>
    if n ≤ 0 then
      Except.error s!"Invalid dimension value: {dimStr (Dim.num n)}. Use a positive number or keywords: half, quarter, third"
    else Except.ok (some n.toNat)
  | Dim.nan =>
    Except.error s!"Invalid dimension value: {dimStr Dim.nan}. Use a positive number or keywords: half, quarter, third"

/-- JS truthiness of a nullable number (`null` and `0` are falsy). -/
def truthy : Option Nat → Bool
  | some n => n != 0
  | none => false

/-- The options record `{ width, height, position = 'center' }` of both
`cropImage` variants. -/
structure CropOptions where
  width : Dim
  height : Dim
  position : String := "center"
deriving Repr, DecidableEq

/-- What a `cropImage` variant asks the image library to do. -/
inductive CropAction where
  | coverResize : Nat → Nat → String → CropAction
  | extract : Int → Int → Nat → Nat → CropAction
deriving Repr, DecidableEq

/-- `calculateCropCoordinates(imgWidth, imgHeight, cropWidth,
cropHeight, position)` (second crop variant).  `Math.floor(x / 2)` on
integers is `Int.fdiv x 2`; `Math.max(0, _)` is `max 0 _`. -/
def calculateCropCoordinates (imgWidth imgHeight cropWidth cropHeight : Int)
    (position : String) : Int × Int :=
  match position with
  | "center" | "centre" =>
    (max 0 ((imgWidth - cropWidth).fdiv 2), max 0 ((imgHeight - cropHeight).fdiv 2))
  | "top" | "north" =>
    (max 0 ((imgWidth - cropWidth).fdiv 2), 0)
  | "bottom" | "south" =>
    (max 0 ((imgWidth - cropWidth).fdiv 2), max 0 (imgHeight - cropHeight))
  | "left" | "west" =>
    (0, max 0 ((imgHeight - cropHeight).fdiv 2))
  | "right" | "east" =>
    (max 0 (imgWidth - cropWidth), max 0 ((imgHeight - cropHeight).fdiv 2))
  | "top-left" | "northwest" => (0, 0)
  | "top-right" | "northeast" => (max 0 (imgWidth - cropWidth), 0)
  | "bottom-left" | "southwest" => (0, max 0 (imgHeight - cropHeight))
  | "bottom-right" | "southeast" =>
    (max 0 (imgWidth - cropWidth), max 0 (imgHeight - cropHeight))
  | _ =>
    (max 0 ((imgWidth - cropWidth).fdiv 2), max 0 ((imgHeight - cropHeight).fdiv 2))

/-- The front half of the second `cropImage` variant: presence check,
position validation, metadata read (the `imgWidth`/`imgHeight`
parameters), dimension parsing, and proportional derivation of a
missing dimension.  The JS aspect-ratio product
`Math.floor(cropWidth * (imgHeight / imgWidth))` is modelled by exact
rational flooring, i.e. Nat division. -/
def cropDims (imgWidth imgHeight : Nat) (o : CropOptions) :
    Except String (String × Nat × Nat) := do
  if o.width = Dim.absent && o.height = Dim.absent then
    throw "At least one of --w (width) or --h (height) must be specified for cropping"
  let pos := strToLower o.position
  match POSITION_MAP pos with
  | none => throw (invalidPositionMsg o.position)
  | some posMapped =>
    let cropWidth ← parseDimension o.width imgWidth
    let cropHeight ← parseDimension o.height imgHeight
    let dims :=
      if truthy cropWidth && !truthy cropHeight then
        (cropWidth.getD 0, cropWidth.getD 0 * imgHeight / imgWidth)
      else if truthy cropHeight && !truthy cropWidth then
        (cropHeight.getD 0 * imgWidth / imgHeight, cropHeight.getD 0)
      else (cropWidth.getD 0, cropHeight.getD 0)
    pure (posMapped, dims.1, dims.2)

/-- The second `cropImage` variant (`crop.js`, lines 185–246): after
`cropDims`, reject a crop wider or taller than the source, then
extract the rectangle anchored by `calculateCropCoordinates`. -/
def cropImageV2 (imgWidth imgHeight : Nat) (o : CropOptions) :
    Except String CropAction := do
  let (posMapped, cropWidth, cropHeight) ← cropDims imgWidth imgHeight o
  if cropWidth > imgWidth then
    throw s!"Crop width ({cropWidth}) exceeds image width ({imgWidth})"
  else if cropHeight > imgHeight then
    throw s!"Crop height ({cropHeight}) exceeds image height ({imgHeight})"
  else
    let c := calculateCropCoordinates (imgWidth : Int) (imgHeight : Int)
      (cropWidth : Int) (cropHeight : Int) posMapped
    pure (CropAction.extract c.1 c.2 cropWidth cropHeight)

/-- `parseInt` of a dimension in the first `cropImage` variant (no
keyword support: keywords parse as NaN). -/
def parseIntDim (d : Dim) (msg : String) : Except String Nat :=
  match d with
  | Dim.num n => if n ≤ 0 then Except.error msg else Except.ok n.toNat
  | _ => Except.error msg

/-- The first `cropImage` variant (`crop.js`, lines 24–58): requires
both dimensions, validates them and the position, then asks the
library for a cover-fit resize to the requested size.  It never reads
the source image's dimensions — the parameters are kept only for
signature parity with the second variant. -/
def cropImageV1 (_imgWidth _imgHeight : Nat) (o : CropOptions) :
    Except String CropAction := do
  if o.width = Dim.absent || o.height = Dim.absent then
    throw "Both --w (width) and --h (height) are required for cropping"
  let w ← parseIntDim o.width "Width must be a positive number"
  let h ← parseIntDim o.height "Height must be a positive number"
  let pos := strToLower o.position
  match POSITION_MAP pos with
  | none => throw (invalidPositionMsg o.position)
  | some posMapped => pure (CropAction.coverResize w h posMapped)

/-! ### Concrete fixtures used by the closed theorems and witnesses -/

/-- A working directory holding exactly one image file `a.jpg`. -/
def fsOneImage : FSTree := FSTree.dir [("a.jpg", FSTree.file)]

/-- `fs.statSync` view of `fsOneImage` with the working directory at
the root. -/
def statOneImage : Path → FSKind := fun p =>
  if p = [] then FSKind.dir
  else if p = ["a.jpg"] then FSKind.file
  else FSKind.missing

/-- A file system with sibling directories `/p/photos` and
`/p/photos2`, the latter holding `x.jpg`: `/p/photos` is a string
prefix of `/p/photos2/x.jpg` without containing it. -/
def statPhotos : Path → FSKind := fun p =>
  if p = ["p"] ∨ p = ["p", "photos"] ∨ p = ["p", "photos2"] then FSKind.dir
  else if p = ["p", "photos2", "x.jpg"] then FSKind.file
  else FSKind.missing

/-- A file system with an input directory `/root` holding
`a/b/c.jpg`. -/
def statRootDir : Path → FSKind := fun p =>
  if p = ["root"] ∨ p = ["root", "a"] ∨ p = ["root", "a", "b"] then FSKind.dir
  else if p = ["root", "a", "b", "c.jpg"] then FSKind.file
  else FSKind.missing

/-- A home directory holding a directory `photos` and a file
`photo.jpg`, with the working directory at `/home`. -/
def statHome : Path → FSKind := fun p =>
  if p = ["home"] ∨ p = ["home", "photos"] then FSKind.dir
  else if p = ["home", "photo.jpg"] then FSKind.file
  else FSKind.missing

/-- A small tree for the discovery witness: `photos` holds `a.jpg`,
`b.txt` and `sub/c.PNG`. -/
def fsPhotosTree : FSTree :=
  FSTree.dir [("photos", FSTree.dir
    [("a.jpg", FSTree.file), ("b.txt", FSTree.file),
     ("sub", FSTree.dir [("c.PNG", FSTree.file)])])]

/-! ### Helper lemmas -/

/-- The last component of a path extended by one component. -/
theorem lastName_concat (l : List String) (x : String) : lastName (l ++ [x]) = x := by
  induction l with
  | nil => rfl
  | cons a as ih =>
    cases as with
    | nil => rfl
    | cons b bs => simp only [lastName, List.cons_append] at ih ⊢; exact ih

/-- Full description of the per-file loop of `processImages`: counts
are the numbers of succeeding and failing files, the error list pairs
each failing file's base name with its message in file order, every
file is attempted, and one output directory is ensured per file. -/
theorem processLoop_eq (outPathOf : Path → Path) (run : Path → Path → Except String Unit) :
    ∀ files : List Path,
    processLoop outPathOf run files =
      ((files.filter fun f => (run f (outPathOf f)).toBool).length,
       (files.filter fun f => !(run f (outPathOf f)).toBool).length,
       files.filterMap (fun f =>
         match run f (outPathOf f) with
         | Except.error e => some (lastName f, e)
         | Except.ok _ => none),
       files,
       files.map fun f => dirname (outPathOf f)) := by
  intro files
  induction files with
  | nil => rfl
  | cons f rest ih =>
    cases h : run f (outPathOf f) with
    | ok a => simp [processLoop, ih, h, Except.toBool, Except.isOk, List.filter, List.filterMap]
    | error e => simp [processLoop, ih, h, Except.toBool, Except.isOk, List.filter, List.filterMap]

/-- With both options set, `optimizeImage` rejects every file with the
mutual-exclusion message. -/
theorem optimizeImage_both (name : String) (q : Nat) :
    optimizeImage name (some q) true =
      Except.error "Cannot use both --quality and --lossless. Choose one." := by
  rfl

/-- Bind on a successful `Except` computation reduces to the
continuation. -/
theorem except_bind_ok {ε α β : Type} (a : α) (f : α → Except ε β) :
    (Except.ok a >>= f : Except ε β) = f a := rfl

/-- `throw` in the `Except` monad is `Except.error`. -/
theorem except_throw_eq {ε α : Type} (e : ε) : (throw e : Except ε α) = Except.error e := rfl

mutual

/-- One directory entry contributes exactly its recognized files: the
traversal of an entry equals the list of all files below it filtered
by the recognized-extension test. -/
theorem findImagesInEntry_filter (base : Path) (name : String) :
    ∀ t : FSTree, findImagesInEntry base name t =
      (allFilesInEntry base name t).filter (fun p => isImageFile (lastName p))
  | FSTree.file => by
    simp only [findImagesInEntry, allFilesInEntry, List.filter, lastName_concat]
    cases h : isImageFile name <;> simp [h]
  | FSTree.dir es => by
    simp only [findImagesInEntry, allFilesInEntry]
    exact findImagesInDirectory_filter (base ++ [name]) es

/-- `findImagesInDirectory` returns exactly the recognized files below
the given entries, in traversal order. -/
theorem findImagesInDirectory_filter (base : Path) :
    ∀ es : List (String × FSTree), findImagesInDirectory base es =
      (allFilesUnder base es).filter (fun p => isImageFile (lastName p))
  | [] => rfl
  | (n, t) :: rest => by
    simp only [findImagesInDirectory, allFilesUnder, List.filter_append]
    rw [findImagesInEntry_filter base n t, findImagesInDirectory_filter base rest]

end

/-! ### Claim theorems -/

/-- C1: the exit status is claimed to be non-zero iff some file failed
or zero images were discovered.  The code disagrees on the failure
half: the action layer never consults `results.failed`, so a batch of
one image whose processing fails ("corrupt input") finishes with exit
status 0.  Zero discovered images do exit 1, and a fully successful
batch exits 0, as claimed. -/
theorem convert_exit_zero_despite_failures :
    convertAction [] fsOneImage statOneImage ["a.jpg"] "webp" none
      (fun _ _ => Except.error "corrupt input") =
      ⟨0, some ⟨⟨1, 0, 1, [("a.jpg", "corrupt input")]⟩, [["a.jpg"]], [[]]⟩⟩ ∧
    convertAction [] fsOneImage statOneImage ["nope.jpg"] "webp" none
      (fun _ _ => Except.ok ()) = ⟨1, none⟩ ∧
    convertAction [] fsOneImage statOneImage ["a.jpg"] "webp" none
      (fun _ _ => Except.ok ()) =
      ⟨0, some ⟨⟨1, 1, 0, []⟩, [["a.jpg"]], [[]]⟩⟩ := by
  exact ⟨by decide, by decide, by decide⟩

/-- C2 counterexample: `optimize` invoked with both `--quality 70` and
`--lossless` on one image does *not* fail validation before touching
any file — the action exits 0, per-file processing is attempted for
`a.jpg`, and the output directory is ensured, contrary to the claim. -/
theorem optimize_both_flags_counterexample :
    (optimizeAction [] fsOneImage statOneImage ["a.jpg"] (some 70) true none).exitCode = 0 ∧
    (optimizeAction [] fsOneImage statOneImage ["a.jpg"] (some 70) true none).trace =
      some ⟨⟨1, 0, 1, [("a.jpg", "Cannot use both --quality and --lossless. Choose one.")]⟩,
        [["a.jpg"]], [[]]⟩ := by
  exact ⟨by decide, by decide⟩

/-- C2 (amended): with both the quality option and the lossless flag
set, the optimize action's command-global validation does not reject
the invocation; every discovered file is attempted (its output
directory created first) and fails inside `optimizeImage` with the
mutual-exclusion message, so the batch ends with every file failed and
exit status 0. -/
theorem optimize_both_flags_fail_per_file
    (cwd : Path) (root : FSTree) (stat : Path → FSKind)
    (files : List String) (q : Nat) (outOption : Option String)
    (himg : (findImages cwd root files).1 ≠ []) :
    (optimizeAction cwd root stat files (some q) true outOption).exitCode = 0 ∧
    ∃ t, (optimizeAction cwd root stat files (some q) true outOption).trace = some t ∧
      t.attempted = (findImages cwd root files).1 ∧
      t.result.total = (findImages cwd root files).1.length ∧
      t.result.successful = 0 ∧
      t.result.failed = (findImages cwd root files).1.length ∧
      t.result.errors = (findImages cwd root files).1.map (fun f =>
        (lastName f, "Cannot use both --quality and --lossless. Choose one.")) ∧
      t.dirsEnsured.length = (findImages cwd root files).1.length := by
  have hrun : (fun (f : Path) (_ : Path) =>
      (optimizeImage (lastName f) (some q) true).map (fun _ => ())) =
      fun (_ : Path) (_ : Path) =>
        (Except.error "Cannot use both --quality and --lossless. Choose one." :
          Except String Unit) := by
    funext f o
    rw [optimizeImage_both]
    rfl
  have h0 : (findImages cwd root files).1.length ≠ 0 :=
    fun h => himg (List.length_eq_zero.mp h)
  have hlen : ((findImages cwd root files).1.length == 0) = false := by
    rw [Bool.eq_false_iff]
    simp only [ne_eq, beq_iff_eq]
    exact h0
  simp only [optimizeAction, runBatchAction, processImages, hrun, hlen,
    Option.isNone_some, Bool.not_true, Bool.false_and, Bool.false_eq_true,
    if_false, processLoop_eq]
  simp [Except.toBool, Except.isOk]
  induction (findImages cwd root files).1 with
  | nil => rfl
  | cons a l ih => simp [List.filterMap_cons, ih]

/-- C2 witness: the amended behavior at the concrete both-flags
invocation over one image. -/
theorem optimize_both_flags_fail_per_file_witness :
    (optimizeAction [] fsOneImage statOneImage ["a.jpg"] (some 70) true none).exitCode = 0 ∧
    ∃ t, (optimizeAction [] fsOneImage statOneImage ["a.jpg"] (some 70) true none).trace = some t ∧
      t.attempted = (findImages [] fsOneImage ["a.jpg"]).1 ∧
      t.result.total = (findImages [] fsOneImage ["a.jpg"]).1.length ∧
      t.result.successful = 0 ∧
      t.result.failed = (findImages [] fsOneImage ["a.jpg"]).1.length ∧
      t.result.errors = (findImages [] fsOneImage ["a.jpg"]).1.map (fun f =>
        (lastName f, "Cannot use both --quality and --lossless. Choose one.")) ∧
      t.dirsEnsured.length = (findImages [] fsOneImage ["a.jpg"]).1.length :=
  optimize_both_flags_fail_per_file [] fsOneImage statOneImage ["a.jpg"] 70 none (by decide)

/-- C4: `processImages` reports a total equal to the number of files,
success and failure counts summing to that total, attempts every file
in discovery order (never aborting early), and collects exactly one
(base name, message) pair per failing file, in processing order. -/
theorem processImages_batch_result (files : List Path) (outPathOf : Path → Path)
    (run : Path → Path → Except String Unit) :
    (processImages files outPathOf run).result.total = files.length ∧
    (processImages files outPathOf run).result.successful +
      (processImages files outPathOf run).result.failed = files.length ∧
    (processImages files outPathOf run).attempted = files ∧
    (processImages files outPathOf run).result.errors =
      files.filterMap (fun f =>
        match run f (outPathOf f) with
        | Except.error e => some (lastName f, e)
        | Except.ok _ => none) := by
  unfold processImages
  rw [processLoop_eq]
  refine ⟨rfl, ?_, rfl, rfl⟩
  exact (List.length_eq_length_filter_add (fun f => (run f (outPathOf f)).toBool)).symm

/-- C3 counterexample: the first `cropImage` variant performs no
bounds validation at all.  A crop request of 800×600 on a 400×300
source succeeds — it asks the library for a cover-fit resize to
800×600 (an upscale) instead of failing with a bounds-exceeded
error, contrary to the claim that every oversize crop fails. -/
theorem cropImageV1_no_bounds_check_counterexample :
    cropImageV1 400 300 { width := Dim.num 800, height := Dim.num 600 } =
      Except.ok (CropAction.coverResize 800 600 "centre") := by
  decide

/-- C3 (amended): in the second `cropImage` variant, whenever the
requested (or proportionally derived) crop width exceeds the source
width, or the crop height exceeds the source height, the file fails
with the corresponding bounds-exceeded error and no extract is
issued; the first variant performs no such check (see the
counterexample). -/
theorem cropImageV2_bounds_error (imgW imgH : Nat) (o : CropOptions)
    (p : String) (cw ch : Nat)
    (hdims : cropDims imgW imgH o = Except.ok (p, cw, ch)) :
    (imgW < cw → cropImageV2 imgW imgH o =
      Except.error s!"Crop width ({cw}) exceeds image width ({imgW})") ∧
    (cw ≤ imgW → imgH < ch → cropImageV2 imgW imgH o =
      Except.error s!"Crop height ({ch}) exceeds image height ({imgH})") := by
  constructor
  · intro h
    have h' : cw > imgW := h
    simp [cropImageV2, hdims, except_bind_ok, except_throw_eq, h']
  · intro hw h
    have hw' : ¬(cw > imgW) := by omega
    have h' : ch > imgH := h
    simp [cropImageV2, hdims, except_bind_ok, except_throw_eq, hw', h']

/-- C3 witness: the 800×600 crop of a 400×300 source fails in the
second variant with the width bounds-exceeded error. -/
theorem cropImageV2_bounds_error_witness :
    cropImageV2 400 300 { width := Dim.num 800, height := Dim.num 600 } =
      Except.error "Crop width (800) exceeds image width (400)" :=
  (cropImageV2_bounds_error 400 300
    { width := Dim.num 800, height := Dim.num 600 } "centre" 800 600
    (by decide)).1 (by decide)

/-- C9: for every anchor position string (the nine mapped gravity
names and any other string, which falls to the centre default) and all
crop dimensions that are positive and no larger than the source, the
computed top-left corner keeps the extracted rectangle inside the
source image. -/
theorem calculateCropCoordinates_in_bounds (position : String)
    (imgWidth imgHeight cropWidth cropHeight : Int)
    (hw0 : 0 < cropWidth) (hw : cropWidth ≤ imgWidth)
    (hh0 : 0 < cropHeight) (hh : cropHeight ≤ imgHeight) :
    0 ≤ (calculateCropCoordinates imgWidth imgHeight cropWidth cropHeight position).1 ∧
    (calculateCropCoordinates imgWidth imgHeight cropWidth cropHeight position).1 ≤
      imgWidth - cropWidth ∧
    0 ≤ (calculateCropCoordinates imgWidth imgHeight cropWidth cropHeight position).2 ∧
    (calculateCropCoordinates imgWidth imgHeight cropWidth cropHeight position).2 ≤
      imgHeight - cropHeight := by
  have hwd : 0 ≤ imgWidth - cropWidth := by omega
  have hhd : 0 ≤ imgHeight - cropHeight := by omega
  have hfw1 : 0 ≤ (imgWidth - cropWidth).fdiv 2 := Int.fdiv_nonneg hwd (by omega)
  have hfw2 : (imgWidth - cropWidth).fdiv 2 ≤ imgWidth - cropWidth := by
    rw [Int.fdiv_eq_ediv _ (by omega)]
    exact Int.ediv_le_self _ hwd
  have hfh1 : 0 ≤ (imgHeight - cropHeight).fdiv 2 := Int.fdiv_nonneg hhd (by omega)
  have hfh2 : (imgHeight - cropHeight).fdiv 2 ≤ imgHeight - cropHeight := by
    rw [Int.fdiv_eq_ediv _ (by omega)]
    exact Int.ediv_le_self _ hhd
  unfold calculateCropCoordinates
  split <;> dsimp only <;> refine ⟨?_, ?_, ?_, ?_⟩ <;>
    (try simp only [max_le_iff, le_max_iff]) <;> omega

/-- C9 witness: the bottom-right anchor on a 400×300 source with a
200×100 crop. -/
theorem calculateCropCoordinates_in_bounds_witness :
    0 ≤ (calculateCropCoordinates 400 300 200 100 "southeast").1 ∧
    (calculateCropCoordinates 400 300 200 100 "southeast").1 ≤ 400 - 200 ∧
    0 ≤ (calculateCropCoordinates 400 300 200 100 "southeast").2 ∧
    (calculateCropCoordinates 400 300 200 100 "southeast").2 ≤ 300 - 100 :=
  calculateCropCoordinates_in_bounds "southeast" 400 300 200 100
    (by decide) (by decide) (by decide) (by decide)

/-- C5: for a DirectoryTree target, `getOutputFilePath` relativizes
against the first input whose resolved path is a (string) prefix of
the file's path — the input itself when it is a directory, its parent
when it is a file, and the file's own parent when no input owns it —
and produces target root / relative directory / base name with the
new-or-original extension.  In particular `/root/a/b/c.jpg` under
input directory `/root` with output base `/OUT` maps to
`/OUT/a/b/c.jpg`, with the extension substituted when converting. -/
theorem getOutputFilePath_directory_tree :
    (∀ (cwd : Path) (stat : Path → FSKind) (inputs : List String) (file : Path)
      (outBase : Path) (newExt : Option String) (owner : String),
      inputs.find? (fun i => strStartsWith (render file) (render (resolve cwd i))) =
        some owner →
      stat (resolve cwd owner) = FSKind.dir →
      getOutputFilePath cwd stat file inputs ⟨outBase, true, false⟩ newExt =
        normalize (normalize outBase (relative (resolve cwd owner) (dirname file)))
          [stripExt (lastName file) (extname (lastName file)) ++
            newExt.getD (extname (lastName file))]) ∧
    (∀ (cwd : Path) (stat : Path → FSKind) (inputs : List String) (file : Path)
      (outBase : Path) (newExt : Option String) (owner : String),
      inputs.find? (fun i => strStartsWith (render file) (render (resolve cwd i))) =
        some owner →
      stat (resolve cwd owner) = FSKind.file →
      getOutputFilePath cwd stat file inputs ⟨outBase, true, false⟩ newExt =
        normalize (normalize outBase
            (relative (dirname (resolve cwd owner)) (dirname file)))
          [stripExt (lastName file) (extname (lastName file)) ++
            newExt.getD (extname (lastName file))]) ∧
    (∀ (cwd : Path) (stat : Path → FSKind) (inputs : List String) (file : Path)
      (outBase : Path) (newExt : Option String),
      inputs.find? (fun i => strStartsWith (render file) (render (resolve cwd i))) =
        none →
      getOutputFilePath cwd stat file inputs ⟨outBase, true, false⟩ newExt =
        normalize (normalize outBase (relative (dirname file) (dirname file)))
          [stripExt (lastName file) (extname (lastName file)) ++
            newExt.getD (extname (lastName file))]) ∧
    getOutputFilePath [] statRootDir ["root", "a", "b", "c.jpg"] ["/root"]
      ⟨["OUT"], true, false⟩ none = ["OUT", "a", "b", "c.jpg"] ∧
    getOutputFilePath [] statRootDir ["root", "a", "b", "c.jpg"] ["/root"]
      ⟨["OUT"], true, false⟩ (some ".webp") = ["OUT", "a", "b", "c.webp"] := by
  refine ⟨?_, ?_, ?_, by decide, by decide⟩
  · intro cwd stat inputs file outBase newExt owner hfind hstat
    simp [getOutputFilePath, findOwnerBase, hfind, hstat]
  · intro cwd stat inputs file outBase newExt owner hfind hstat
    simp [getOutputFilePath, findOwnerBase, hfind, hstat]
  · intro cwd stat inputs file outBase newExt hfind
    simp [getOutputFilePath, findOwnerBase, hfind]

/-- C5 witness: the owning-directory clause applied to the spec's own
example (`/root/a/b/c.jpg` under `/root`, output base `/OUT`). -/
theorem getOutputFilePath_directory_tree_witness :
    getOutputFilePath [] statRootDir ["root", "a", "b", "c.jpg"] ["/root"]
      ⟨["OUT"], true, false⟩ none =
      normalize (normalize ["OUT"]
          (relative (resolve [] "/root") (dirname ["root", "a", "b", "c.jpg"])))
        [stripExt (lastName ["root", "a", "b", "c.jpg"])
            (extname (lastName ["root", "a", "b", "c.jpg"])) ++
          (Option.none).getD (extname (lastName ["root", "a", "b", "c.jpg"]))] :=
  getOutputFilePath_directory_tree.1 [] statRootDir ["/root"]
    ["root", "a", "b", "c.jpg"] ["OUT"] none "/root" (by decide) (by decide)

/-- C6: with no explicit output, a single directory input maps to a
sibling DirectoryTree named with the `-imgwork` suffix, a single file
input maps to a SingleFile `B-imgwork.ext` in the same parent
directory, and more than one input maps to a DirectoryTree
`imgwork-output` under the working directory. -/
theorem resolveOutputPath_defaults :
    (∀ (cwd : Path) (stat : Path → FSKind) (d : String),
      stat (resolve cwd d) = FSKind.dir →
      resolveOutputPath cwd stat [d] none =
        ⟨appendToLast (resolve cwd d) "-imgwork", true, false⟩ ∧
      (resolve cwd d ≠ [] →
        dirname (appendToLast (resolve cwd d) "-imgwork") = dirname (resolve cwd d) ∧
        lastName (appendToLast (resolve cwd d) "-imgwork") =
          lastName (resolve cwd d) ++ "-imgwork")) ∧
    (∀ (cwd : Path) (stat : Path → FSKind) (f : String),
      stat (resolve cwd f) = FSKind.file →
      resolveOutputPath cwd stat [f] none =
        ⟨dirname (resolve cwd f) ++
          [stripExt (lastName (resolve cwd f)) (extname (lastName (resolve cwd f))) ++
            "-imgwork" ++ extname (lastName (resolve cwd f))], false, true⟩) ∧
    (∀ (cwd : Path) (stat : Path → FSKind) (inputs : List String),
      2 ≤ inputs.length →
      resolveOutputPath cwd stat inputs none = ⟨cwd ++ ["imgwork-output"], true, false⟩) := by
  refine ⟨?_, ?_, ?_⟩
  · intro cwd stat d hstat
    refine ⟨by simp [resolveOutputPath, hstat], ?_⟩
    intro hne
    cases hp : resolve cwd d with
    | nil => exact absurd hp hne
    | cons a as =>
      constructor
      · show dirname ((a :: as).dropLast ++ [(a :: as).getLastD "" ++ "-imgwork"]) = _
        rw [dirname, List.dropLast_concat]
        rfl
      · show lastName ((a :: as).dropLast ++ [(a :: as).getLastD "" ++ "-imgwork"]) = _
        rw [lastName_concat]
        rfl
  · intro cwd stat f hstat
    simp [resolveOutputPath, hstat]
  · intro cwd stat inputs hlen
    have h1 : (inputs.length == 1) = false := by
      rw [Bool.eq_false_iff]
      simp only [ne_eq, beq_iff_eq]
      omega
    simp [resolveOutputPath, h1]
    rfl

/-- C6 witness: the three default-output rules at the `/home` fixture
(`photos/` → `photos-imgwork/`, `photo.jpg` → `photo-imgwork.jpg`,
two inputs → `imgwork-output` under the working directory). -/
theorem resolveOutputPath_defaults_witness :
    (resolveOutputPath ["home"] statHome ["photos"] none =
        ⟨appendToLast (resolve ["home"] "photos") "-imgwork", true, false⟩ ∧
      (resolve ["home"] "photos" ≠ [] →
        dirname (appendToLast (resolve ["home"] "photos") "-imgwork") =
          dirname (resolve ["home"] "photos") ∧
        lastName (appendToLast (resolve ["home"] "photos") "-imgwork") =
          lastName (resolve ["home"] "photos") ++ "-imgwork")) ∧
    resolveOutputPath ["home"] statHome ["photo.jpg"] none =
      ⟨dirname (resolve ["home"] "photo.jpg") ++
        [stripExt (lastName (resolve ["home"] "photo.jpg"))
            (extname (lastName (resolve ["home"] "photo.jpg"))) ++
          "-imgwork" ++ extname (lastName (resolve ["home"] "photo.jpg"))], false, true⟩ ∧
    resolveOutputPath ["home"] statHome ["a.jpg", "b.jpg"] none =
      ⟨["home"] ++ ["imgwork-output"], true, false⟩ :=
  ⟨resolveOutputPath_defaults.1 ["home"] statHome "photos" (by decide),
   resolveOutputPath_defaults.2.1 ["home"] statHome "photo.jpg" (by decide),
   resolveOutputPath_defaults.2.2 ["home"] statHome ["a.jpg", "b.jpg"] (by decide)⟩

/-- C7: with an explicit `--out`, the result is always a DirectoryTree
(never a SingleFile) regardless of the inputs, and a `./`- or
`../`-prefixed path is resolved against the parent directory of the
first input specifier rather than the working directory. -/
theorem resolveOutputPath_explicit (cwd : Path) (stat : Path → FSKind)
    (first : String) (rest : List String) (out : String) :
    (resolveOutputPath cwd stat (first :: rest) (some out)).isDirectory = true ∧
    (resolveOutputPath cwd stat (first :: rest) (some out)).isSingleFile = false ∧
    ((strStartsWith out "./" || strStartsWith out "../") = true →
      (resolveOutputPath cwd stat (first :: rest) (some out)).outputBase =
        resolve (dirname (resolve cwd first)) out) := by
  refine ⟨?_, ?_, ?_⟩
  · cases h : (strStartsWith out "./" || strStartsWith out "../") <;>
      simp [resolveOutputPath, h]
  · cases h : (strStartsWith out "./" || strStartsWith out "../") <;>
      simp [resolveOutputPath, h]
  · intro h
    simp [resolveOutputPath, h]

/-- C7 witness: from working directory `/w1/w2`, `--out ../exp` on
first input `/home/photos` resolves against `/home` (the input's
parent), yielding `/exp` — not against the working directory, which
would give `/w1/exp`. -/
theorem resolveOutputPath_explicit_witness :
    (resolveOutputPath ["w1", "w2"] statHome ["/home/photos"] (some "../exp")).isDirectory =
      true ∧
    (resolveOutputPath ["w1", "w2"] statHome ["/home/photos"] (some "../exp")).isSingleFile =
      false ∧
    (resolveOutputPath ["w1", "w2"] statHome ["/home/photos"] (some "../exp")).outputBase =
      resolve (dirname (resolve ["w1", "w2"] "/home/photos")) "../exp" ∧
    (resolveOutputPath ["w1", "w2"] statHome ["/home/photos"] (some "../exp")).outputBase ≠
      resolve ["w1", "w2"] "../exp" :=
  ⟨(resolveOutputPath_explicit ["w1", "w2"] statHome "/home/photos" [] "../exp").1,
   (resolveOutputPath_explicit ["w1", "w2"] statHome "/home/photos" [] "../exp").2.1,
   (resolveOutputPath_explicit ["w1", "w2"] statHome "/home/photos" [] "../exp").2.2
     (by decide),
   by decide⟩

/-- C8: discovery returns exactly the files whose (case-insensitive)
extension is recognized — a directory input contributes precisely the
recognized files at arbitrary nesting depth, a file input contributes
itself exactly when recognized (with a skip warning otherwise) — and a
path that does not exist is skipped with a warning while discovery of
the remaining paths continues. -/
theorem findImages_exact :
    (∀ (base : Path) (es : List (String × FSTree)),
      findImagesInDirectory base es =
        (allFilesUnder base es).filter (fun p => isImageFile (lastName p))) ∧
    (∀ (cwd : Path) (root : FSTree) (p : String) (rest : List String),
      root.lookup (resolve cwd p) = none →
      findImages cwd root (p :: rest) =
        ((findImages cwd root rest).1,
          (s!"Error: Path does not exist: {p}") :: (findImages cwd root rest).2)) ∧
    (∀ (cwd : Path) (root : FSTree) (p : String) (rest : List String)
      (es : List (String × FSTree)),
      root.lookup (resolve cwd p) = some (FSTree.dir es) →
      findImages cwd root (p :: rest) =
        ((allFilesUnder (resolve cwd p) es).filter (fun q => isImageFile (lastName q)) ++
          (findImages cwd root rest).1, (findImages cwd root rest).2)) ∧
    (∀ (cwd : Path) (root : FSTree) (p : String) (rest : List String),
      root.lookup (resolve cwd p) = some FSTree.file →
      findImages cwd root (p :: rest) =
        (if isImageFile (lastName (resolve cwd p)) then
          ((resolve cwd p) :: (findImages cwd root rest).1, (findImages cwd root rest).2)
        else
          ((findImages cwd root rest).1,
            (s!"Skipping non-image file: {p}") :: (findImages cwd root rest).2))) := by
  refine ⟨findImagesInDirectory_filter, ?_, ?_, ?_⟩
  · intro cwd root p rest h
    simp [findImages, h]
  · intro cwd root p rest es h
    simp [findImages, h, findImagesInDirectory_filter]
  · intro cwd root p rest h
    cases hi : isImageFile (lastName (resolve cwd p)) <;> simp [findImages, h, hi]

/-- C8 witness: on the `photos` tree (two recognized files `a.jpg` and
`sub/c.PNG`, one `b.txt`), the directory rule, the missing-path rule
and the non-image-file rule at concrete inputs. -/
theorem findImages_exact_witness :
    findImages [] fsPhotosTree ["/photos"] =
      ((allFilesUnder (resolve [] "/photos")
          [("a.jpg", FSTree.file), ("b.txt", FSTree.file),
           ("sub", FSTree.dir [("c.PNG", FSTree.file)])]).filter
          (fun q => isImageFile (lastName q)) ++
        (findImages [] fsPhotosTree []).1, (findImages [] fsPhotosTree []).2) ∧
    findImages [] fsPhotosTree ["/nope"] =
      ((findImages [] fsPhotosTree []).1,
        "Error: Path does not exist: /nope" :: (findImages [] fsPhotosTree []).2) ∧
    findImages [] fsPhotosTree ["/photos/b.txt"] =
      ((findImages [] fsPhotosTree []).1,
        "Skipping non-image file: /photos/b.txt" :: (findImages [] fsPhotosTree []).2) := by
  refine ⟨findImages_exact.2.2.1 [] fsPhotosTree "/photos" []
      [("a.jpg", FSTree.file), ("b.txt", FSTree.file),
       ("sub", FSTree.dir [("c.PNG", FSTree.file)])] (by rfl),
    findImages_exact.2.1 [] fsPhotosTree "/nope" [] (by rfl), ?_⟩
  have h := findImages_exact.2.2.2 [] fsPhotosTree "/photos/b.txt" [] (by rfl)
  rw [h]
  decide

/-- C10: the owning-specifier test of `getOutputFilePath` is a raw
string-prefix comparison, not a path-component one.  With the single
specifier `/p/photos` (a directory) and the discovered file
`/p/photos2/x.jpg`, which lies under no listed specifier as a path
component, the scan still selects `/p/photos` as owner because it is a
string prefix of the file's path, and relativizes against that
unrelated directory — here the resulting output path `/photos2/x.jpg`
even escapes the output base `/out`. -/
theorem getOutputFilePath_string_prefix_ownership :
    strStartsWith (render ["p", "photos2", "x.jpg"]) (render (resolve [] "/p/photos")) =
      true ∧
    isPathAncestor (resolve [] "/p/photos") ["p", "photos2", "x.jpg"] = false ∧
    findOwnerBase [] statPhotos ["/p/photos"] ["p", "photos2", "x.jpg"] = ["p", "photos"] ∧
    getOutputFilePath [] statPhotos ["p", "photos2", "x.jpg"] ["/p/photos"]
      ⟨["out"], true, false⟩ none = ["photos2", "x.jpg"] ∧
    isPathAncestor ["out"]
      (getOutputFilePath [] statPhotos ["p", "photos2", "x.jpg"] ["/p/photos"]
        ⟨["out"], true, false⟩ none) = false := by
  refine ⟨by decide, by decide, by decide, by decide, by decide⟩

end Imgwork
